import Mathlib

/-!
# Solar-system simulator: gravitational core

Shallow embedding of the simulation core of `src/main.cpp`: the body record,
the constants, `Gravity`, `Angle`, `CreatePlanet`, `CreateMoon`, the registry
setup of `main`, and one tick of the simulation loop (force accumulation,
position loop, velocity loop).

C++ `float`/`double` values are read as exact real numbers, so the
definitions that compute with them live in a `noncomputable section`; the
loop skeleton (`forLoop`, `push_back`) is ordinary executable code.
`sqrt`, `cos`, `sin` are the real functions and `atan2 y x` is the argument
of the point `(x, y)`.
-/

namespace SolarSim

/-! ## Data model -/

/-- The class `sf::Vector2f`: a pair of floats. -/
@[ext]
structure Vector2f where
  x : ℝ
  y : ℝ

/-- The class `sf::Color`: red, green, blue, alpha. -/
structure Color where
  r : ℕ
  g : ℕ
  b : ℕ
  a : ℕ
deriving DecidableEq, Repr

/-- The part of `sf::RectangleShape` the program touches. -/
structure RectangleShape where
  size : Vector2f
  origin : Vector2f
  fillColor : Color
  position : Vector2f

/-- The struct `body` (main.cpp 56-63). -/
structure body where
  name : String
  square : RectangleShape
  velocity : Vector2f
  position : Vector2f
  mass : ℝ

/-- The `for (int i = lo; i < hi; i++)` loop: `step i` is the loop body run at index `i`. -/
def forLoop {σ : Type} (lo hi : ℕ) (step : ℕ → σ → σ) (s : σ) : σ :=
  (List.range' lo (hi - lo)).foldl (fun acc i => step i acc) s

/-- The method `std::vector::push_back`. -/
def push_back {α : Type} (v : List α) (a : α) : List α := v ++ [a]

noncomputable section

instance : Inhabited Vector2f := ⟨⟨0, 0⟩⟩

/-- The constant `sf::Color::White`, the fill colour a new shape starts with. -/
def Color.White : Color := ⟨255, 255, 255, 255⟩

instance : Inhabited Color := ⟨⟨0, 0, 0, 255⟩⟩

instance : Inhabited RectangleShape := ⟨⟨⟨0, 0⟩, ⟨0, 0⟩, Color.White, ⟨0, 0⟩⟩⟩

instance : Inhabited body := ⟨⟨"", default, ⟨0, 0⟩, ⟨0, 0⟩, 0⟩⟩

/-- Vector sum, `operator+` of `sf::Vector2f`. -/
def Vector2f.add (a b : Vector2f) : Vector2f := ⟨a.x + b.x, a.y + b.y⟩

/-- Vector times scalar, `operator*(Vector2f, float)`. -/
def Vector2f.mulr (a : Vector2f) (s : ℝ) : Vector2f := ⟨a.x * s, a.y * s⟩

/-- Scalar times vector, `operator*(float, Vector2f)`. -/
def Vector2f.mull (s : ℝ) (a : Vector2f) : Vector2f := ⟨s * a.x, s * a.y⟩

/-! ## Constants (main.cpp 73-80) -/

def PI : ℝ := 3.1415926535
def G : ℝ := 4 * PI * PI
def M : ℝ := 1
def HEIGHT : ℤ := 924
def WIDTH : ℤ := 1650
def dt : ℝ := 0.00001
def AU_TO_WORLD : ℝ := 50000
def MOON_RAD_SCALE : ℝ := 1.05

/-! ## Library functions on reals -/

/-- The function `atan2(y, x)` of `<cmath>` on exact reals: the angle of the
point `(x, y)` in `(-π, π]`, and `0` at the origin. -/
def atan2 (y x : ℝ) : ℝ := Complex.arg ⟨x, y⟩

/-! ## Gravity and Angle (main.cpp 89-98) -/

def Gravity (x1 x2 y1 y2 m1 m2 : ℝ) : ℝ :=
  let radius := Real.sqrt ((x2 - x1) ^ 2 + (y2 - y1) ^ 2)
  let force := (G * m1 * m2) / (radius * radius)
  force

def Angle (x1 x2 y1 y2 : ℝ) : ℝ :=
  atan2 (y2 - y1) (x2 - x1)

/-! ## Orbital initialiser (main.cpp 110-168) -/

def CreatePlanet (name : String) (radius mass distance : ℝ) (color : Color)
    (moon : Bool) : body :=
  let _unused := moon
  let planet : body := default
  let planet := { planet with name := name }
  let sizeMult : ℝ := if planet.name ≠ "Sun" then 20 else 1
  let renderRadius := radius * 2 * sizeMult
  let planet := { planet with square := { planet.square with size := ⟨renderRadius, renderRadius⟩ } }
  let planet := { planet with
    square := { planet.square with origin := ⟨renderRadius / 2, renderRadius / 2⟩ } }
  let planet := { planet with square := { planet.square with fillColor := color } }
  let planet := { planet with position := ⟨distance, 0⟩ }
  let planet := { planet with
    square := { planet.square with
      position := ⟨((WIDTH / 2 : ℤ) : ℝ) + planet.position.x * AU_TO_WORLD,
                   ((HEIGHT / 2 : ℤ) : ℝ) + planet.position.y * AU_TO_WORLD⟩ } }
  let planet :=
    if distance = 0 then
      { planet with velocity := ⟨0, 0⟩ }
    else
      { planet with velocity := ⟨0, -Real.sqrt ((M * G) / distance)⟩ }
  let planet := { planet with mass := mass }
  planet

def CreateMoon (name : String) (radius mass parentMass distance parentDistance : ℝ)
    (color : Color) : body :=
  let moon : body := default
  let moon := { moon with name := name }
  let sizeMult : ℝ := 20
  let renderRadius := radius * 2 * sizeMult
  let moon := { moon with square := { moon.square with size := ⟨renderRadius, renderRadius⟩ } }
  let moon := { moon with
    square := { moon.square with origin := ⟨renderRadius / 2, renderRadius / 2⟩ } }
  let moon := { moon with square := { moon.square with fillColor := color } }
  let moon := { moon with position := ⟨distance, 0⟩ }
  let moon := { moon with
    square := { moon.square with
      position := ⟨((WIDTH / 2 : ℤ) : ℝ) + moon.position.x * AU_TO_WORLD * MOON_RAD_SCALE,
                   ((HEIGHT / 2 : ℤ) : ℝ) + moon.position.y * AU_TO_WORLD * MOON_RAD_SCALE⟩ } }
  let moonDistance := distance - parentDistance
  let v_orbit := Real.sqrt (G * parentMass / moonDistance)
  let parentVelocity : Vector2f := ⟨0, -1 * Real.sqrt (M * G / parentDistance)⟩
  let moon := { moon with velocity := ⟨0, parentVelocity.y + (-v_orbit)⟩ }
  let moon := { moon with mass := mass }
  moon

/-! ## Registry setup (main.cpp 199-251) -/

def Color.Yellow : Color := ⟨255, 255, 0, 255⟩
def Color.Blue : Color := ⟨0, 0, 255, 255⟩
def Color.Red : Color := ⟨255, 0, 0, 255⟩

/-- The constructor `sf::Color(r, g, b)`: alpha defaults to 255. -/
def Color.rgb (r g b : ℕ) : Color := ⟨r, g, b, 255⟩

/-- The registry `Bodies` as `main` leaves it before the game loop. -/
def setup : List body :=
  let Bodies : List body := []
  let sunColor := Color.Yellow
  let Bodies := push_back Bodies (CreatePlanet "Sun" 7000 1 0 sunColor false)
  let mercuryColor := Color.rgb 100 0 10
  let Bodies := push_back Bodies (CreatePlanet "Mercury" 24.4 1.66e-7 0.4 mercuryColor false)
  let venusColor := Color.rgb 100 50 10
  let Bodies := push_back Bodies (CreatePlanet "Venus" 60.52 2.44e-6 0.7 venusColor false)
  let earthColor := Color.Blue
  let Bodies := push_back Bodies (CreatePlanet "Earth" 63.71 3e-6 1 earthColor false)
  let earthMass := (Bodies.getD 3 default).mass
  let earthDistance := (Bodies.getD 3 default).position.x
  let moonColor := Color.White
  let Bodies := push_back Bodies
    (CreateMoon "Moon" 17.38 3.69e-8 earthMass 1.00257 earthDistance moonColor)
  let marsColor := Color.Red
  let Bodies := push_back Bodies (CreatePlanet "Mars" 33.90 3.22e-7 1.5 marsColor false)
  let jupiterColor := Color.rgb 160 80 40
  let Bodies := push_back Bodies (CreatePlanet "Jupiter" 699.11 9.5e-4 5.2 jupiterColor false)
  let jupiterMass := (Bodies.getD 6 default).mass
  let jupiterDistance := (Bodies.getD 6 default).position.x
  let ganymedeColor := Color.rgb 233 220 200
  let Bodies := push_back Bodies
    (CreateMoon "Ganymede" 26.341 9.9e-5 jupiterMass 5.215 jupiterDistance ganymedeColor)
  let callistoColor := Color.rgb 130 120 100
  let Bodies := push_back Bodies
    (CreateMoon "Callisto" 24.105 5.41e-6 jupiterMass 5.2055 jupiterDistance callistoColor)
  let saturnColor := Color.rgb 180 140 110
  let Bodies := push_back Bodies (CreatePlanet "Saturn" 582.32 2.86e-4 9.6 saturnColor false)
  let saturnMass := (Bodies.getD 9 default).mass
  let saturnDistance := (Bodies.getD 9 default).position.x
  let titanColor := Color.rgb 250 190 70
  let Bodies := push_back Bodies
    (CreateMoon "Titan" 25.747 6.76e-8 saturnMass 9.61816 saturnDistance titanColor)
  let uranusColor := Color.rgb 170 230 240
  let Bodies := push_back Bodies (CreatePlanet "Uranus" 253.62 4.36e-5 19.2 uranusColor false)
  let neptuneColor := Color.rgb 120 180 190
  let Bodies := push_back Bodies (CreatePlanet "Neptune" 246.22 5.13e-5 30 neptuneColor false)
  Bodies

/-! ## One tick of the simulation loop (main.cpp 279-312) -/

/-- The variables one tick reads and writes: the registry and the array `Accels`. -/
structure SimState where
  Bodies : List body
  Accels : List Vector2f

/-- Body of the inner loop (main.cpp 291-301) at indices `i`, `j`. -/
def pairStep (i j : ℕ) (s : SimState) : SimState :=
  let Bi := s.Bodies.getD i default
  let Bj := s.Bodies.getD j default
  let force := Gravity Bi.position.x Bj.position.x Bi.position.y Bj.position.y Bi.mass Bj.mass
  let angle := Angle Bi.position.x Bj.position.x Bi.position.y Bj.position.y
  let ax := force * Real.cos angle / Bi.mass
  let ay := force * Real.sin angle / Bi.mass
  let s := { s with Accels := s.Accels.modify (fun a => { a with x := a.x + ax }) i }
  let s := { s with Accels := s.Accels.modify (fun a => { a with y := a.y + ay }) i }
  let s := { s with Accels := s.Accels.modify (fun a => { a with x := a.x - ax * Bi.mass / Bj.mass }) j }
  let s := { s with Accels := s.Accels.modify (fun a => { a with y := a.y - ay * Bi.mass / Bj.mass }) j }
  s

/-- Body of the outer loop (main.cpp 286-302): the loop over `j` from `i+1`. -/
def innerLoop (n i : ℕ) (s : SimState) : SimState :=
  forLoop (i + 1) n (pairStep i) s

/-- The force accumulation loop (main.cpp 284-303). -/
def forceLoop (n : ℕ) (s : SimState) : SimState :=
  forLoop 0 n (innerLoop n) s

/-- Body of the position loop (main.cpp 307). -/
def positionStep (i : ℕ) (s : SimState) : SimState :=
  let Ai := s.Accels.getD i default
  { s with Bodies := s.Bodies.modify (fun b => { b with
      position := b.position.add
        ((b.velocity.mulr dt).add (((Vector2f.mull 0.5 Ai).mulr dt).mulr dt)) }) i }

/-- Body of the velocity loop (main.cpp 311). -/
def velocityStep (i : ℕ) (s : SimState) : SimState :=
  let Ai := s.Accels.getD i default
  { s with Bodies := s.Bodies.modify (fun b => { b with
      velocity := b.velocity.add (Ai.mulr dt) }) i }

/-- The force pass of one tick: `Accels` is created all-zero (main.cpp 280) and
the force loop runs on it. -/
def forcePass (n : ℕ) (Bodies : List body) : SimState :=
  forceLoop n { Bodies := Bodies, Accels := List.replicate n ⟨0, 0⟩ }

/-- The simulation part of one iteration of the game loop (main.cpp 279-312),
with `n` the registry size read once at main.cpp 251. -/
def tickState (n : ℕ) (Bodies : List body) : SimState :=
  let s := forcePass n Bodies
  let s := forLoop 0 n positionStep s
  let s := forLoop 0 n velocityStep s
  s

/-- The registry after one tick. -/
def tick (Bodies : List body) : List body :=
  (tickState Bodies.length Bodies).Bodies

/-- The registry after `k` ticks. -/
def ticks : ℕ → List body → List body
  | 0, Bodies => Bodies
  | k + 1, Bodies => ticks k (tick Bodies)

/-! ## Notions used to state the properties -/

/-- The locals `ax`, `ay` of the inner loop (main.cpp 291-297) at indices `i`, `j`,
as a function of the registry. -/
def pairAccel (Bodies : List body) (i j : ℕ) : Vector2f :=
  let Bi := Bodies.getD i default
  let Bj := Bodies.getD j default
  let force := Gravity Bi.position.x Bj.position.x Bi.position.y Bj.position.y Bi.mass Bj.mass
  let angle := Angle Bi.position.x Bj.position.x Bi.position.y Bj.position.y
  let ax := force * Real.cos angle / Bi.mass
  let ay := force * Real.sin angle / Bi.mass
  ⟨ax, ay⟩

/-- Euclidean distance between two points of the plane. -/
def separation (p q : Vector2f) : ℝ :=
  Real.sqrt ((q.x - p.x) ^ 2 + (q.y - p.y) ^ 2)

/-- Reference definition following the spec's words, not the code: the pull on
body `i` from body `j`, the vector `G * mass[j] * (position[j] - position[i]) /
|position[j] - position[i]|^3`. -/
def newtonPull (Bodies : List body) (i j : ℕ) : Vector2f :=
  let Bi := Bodies.getD i default
  let Bj := Bodies.getD j default
  ⟨G * Bj.mass * (Bj.position.x - Bi.position.x) / separation Bi.position Bj.position ^ 3,
   G * Bj.mass * (Bj.position.y - Bi.position.y) / separation Bi.position Bj.position ^ 3⟩

/-- Reference definition following the spec's words, not the code: the Newtonian
acceleration of body `i`, the sum of the pulls of all bodies `j ≠ i`. -/
def newtonAccel (Bodies : List body) (i : ℕ) : Vector2f :=
  ⟨∑ j ∈ (Finset.range Bodies.length).erase i, (newtonPull Bodies i j).x,
   ∑ j ∈ (Finset.range Bodies.length).erase i, (newtonPull Bodies i j).y⟩

/-- No two bodies of the registry share a position. -/
def DistinctPositions (Bodies : List body) : Prop :=
  Bodies.Pairwise (fun a b => a.position ≠ b.position)

/-- Every mass of the registry is non-zero. -/
def NonzeroMasses (Bodies : List body) : Prop :=
  ∀ b ∈ Bodies, b.mass ≠ 0

/-- Total momentum of the registry: the mass-weighted sum of the velocities. -/
def momentum (Bodies : List body) : Vector2f :=
  ⟨∑ i ∈ Finset.range Bodies.length,
      (Bodies.getD i default).mass * (Bodies.getD i default).velocity.x,
   ∑ i ∈ Finset.range Bodies.length,
      (Bodies.getD i default).mass * (Bodies.getD i default).velocity.y⟩

/-- Mass-weighted sum of an acceleration array over the registry. -/
def weightedAccel (Bodies : List body) (Accels : List Vector2f) : Vector2f :=
  ⟨∑ i ∈ Finset.range Bodies.length, (Bodies.getD i default).mass * (Accels.getD i default).x,
   ∑ i ∈ Finset.range Bodies.length, (Bodies.getD i default).mass * (Accels.getD i default).y⟩

/-- Change that one run of the inner loop body at `(i, j)` makes to entry `k` of
`Accels`: `(ax, ay)` is added at `k = i`, `(ax, ay) * mass[i] / mass[j]` is subtracted
at `k = j`. -/
def pairDelta (Bodies : List body) (i j k : ℕ) : Vector2f :=
  ⟨(if i = k then (pairAccel Bodies i j).x else 0)
      - (if j = k then (pairAccel Bodies i j).x * (Bodies.getD i default).mass
          / (Bodies.getD j default).mass else 0),
   (if i = k then (pairAccel Bodies i j).y else 0)
      - (if j = k then (pairAccel Bodies i j).y * (Bodies.getD i default).mass
          / (Bodies.getD j default).mass else 0)⟩

/-- New value of a body in the position loop (main.cpp 307), given its acceleration. -/
def positionUpdate (A : Vector2f) (b : body) : body :=
  { b with
    position := b.position.add
      ((b.velocity.mulr dt).add (((Vector2f.mull 0.5 A).mulr dt).mulr dt)) }

/-- New value of a body in the velocity loop (main.cpp 311), given its acceleration. -/
def velocityUpdate (A : Vector2f) (b : body) : body :=
  { b with velocity := b.velocity.add (A.mulr dt) }

/-- A three-body registry built the way `main` builds its first bodies: Sun, Earth, Moon. -/
def sunEarthMoon : List body :=
  let Bodies : List body := []
  let Bodies := push_back Bodies (CreatePlanet "Sun" 7000 1 0 Color.Yellow false)
  let Bodies := push_back Bodies (CreatePlanet "Earth" 63.71 3e-6 1 Color.Blue false)
  let earthMass := (Bodies.getD 1 default).mass
  let earthDistance := (Bodies.getD 1 default).position.x
  let Bodies := push_back Bodies
    (CreateMoon "Moon" 17.38 3.69e-8 earthMass 1.00257 earthDistance Color.White)
  Bodies

/-- The two-body registry of an anchor of mass 1 at distance 0 and one planet of mass `m`
at distance `r`, built with `push_back` as `main` builds its registry. -/
def twoBody (sunRadius planetRadius m r : ℝ) (planetName : String)
    (sunColor planetColor : Color) : List body :=
  let Bodies : List body := []
  let Bodies := push_back Bodies (CreatePlanet "Sun" sunRadius 1 0 sunColor false)
  let Bodies := push_back Bodies (CreatePlanet planetName planetRadius m r planetColor false)
  Bodies

/-- A registry of two planets configured at the same distance. -/
def twinPlanets : List body :=
  let Bodies : List body := []
  let Bodies := push_back Bodies (CreatePlanet "Earth" 63.71 3e-6 1 Color.Blue false)
  let Bodies := push_back Bodies (CreatePlanet "Twin" 63.71 3e-6 1 Color.Red false)
  Bodies

end

/-! ## Lemmas on the real library functions -/

lemma cos_atan2 (x y : ℝ) (h : x ≠ 0 ∨ y ≠ 0) :
    Real.cos (atan2 y x) = x / Real.sqrt (x ^ 2 + y ^ 2) := by
  have hz : (⟨x, y⟩ : ℂ) ≠ 0 := by
    intro hc
    have h1 := congrArg Complex.re hc
    have h2 := congrArg Complex.im hc
    simp at h1 h2
    rcases h with h | h
    · exact h h1
    · exact h h2
  unfold atan2
  rw [Complex.cos_arg hz]
  simp [Complex.abs_apply, Complex.normSq_apply, pow_two]

lemma sin_atan2 (x y : ℝ) :
    Real.sin (atan2 y x) = y / Real.sqrt (x ^ 2 + y ^ 2) := by
  unfold atan2
  rw [Complex.sin_arg]
  simp [Complex.abs_apply, Complex.normSq_apply, pow_two]

lemma separation_ne_zero {p q : Vector2f} (h : p ≠ q) : separation p q ≠ 0 := by
  unfold separation
  intro hs
  rw [Real.sqrt_eq_zero (by positivity)] at hs
  apply h
  have h1 : q.x - p.x = 0 := by nlinarith [sq_nonneg (q.x - p.x), sq_nonneg (q.y - p.y)]
  have h2 : q.y - p.y = 0 := by nlinarith [sq_nonneg (q.x - p.x), sq_nonneg (q.y - p.y)]
  ext <;> linarith

lemma coord_ne_of_ne {p q : Vector2f} (h : p ≠ q) : q.x - p.x ≠ 0 ∨ q.y - p.y ≠ 0 := by
  by_contra hc
  push_neg at hc
  apply h
  ext <;> linarith [hc.1, hc.2]

lemma pull_algebra (g mi mj d r : ℝ) (hmi : mi ≠ 0) (hr : r ≠ 0) :
    (g * mi * mj) / (r * r) * (d / r) / mi = g * mj * d / r ^ 3 := by
  field_simp
  ring

/-- The value of `ax`, `ay` when the divisors are non-zero. -/
lemma pairAccel_eq (Bodies : List body) (i j : ℕ)
    (hm : (Bodies.getD i default).mass ≠ 0)
    (hp : (Bodies.getD i default).position ≠ (Bodies.getD j default).position) :
    pairAccel Bodies i j = newtonPull Bodies i j := by
  have hr := separation_ne_zero hp
  have hc := coord_ne_of_ne hp
  unfold separation at hr
  unfold pairAccel newtonPull Gravity Angle separation
  simp only []
  rw [cos_atan2 _ _ hc, sin_atan2]
  ext
  · exact pull_algebra _ _ _ _ _ hm hr
  · exact pull_algebra _ _ _ _ _ hm hr

@[simp] lemma pairStep_Bodies (i j : ℕ) (s : SimState) : (pairStep i j s).Bodies = s.Bodies := rfl

@[simp] lemma pairStep_length (i j : ℕ) (s : SimState) :
    (pairStep i j s).Accels.length = s.Accels.length := by
  simp [pairStep]

lemma pairStep_getD (i j k : ℕ) (s : SimState) (hij : i ≠ j) (hk : k < s.Accels.length) :
    (pairStep i j s).Accels.getD k default =
      (s.Accels.getD k default).add (pairDelta s.Bodies i j k) := by
  have hk' : s.Accels[k]? = some s.Accels[k] := List.getElem?_eq_getElem hk
  simp only [pairStep, pairDelta, pairAccel, Vector2f.add, List.getD_eq_getElem?_getD,
    List.getElem?_modify, hk', Option.map_eq_map, Option.map_some', Option.getD_some]
  by_cases h1 : i = k
  · have h2 : j ≠ k := fun h => hij (h1.trans h.symm)
    simp [h1, h2]
  · by_cases h2 : j = k
    · simp [h1, h2]
      constructor <;> ring
    · simp [h1, h2]

/-! ## Loops as accumulations -/

lemma foldl_accum (B : List body) (n k : ℕ) (step : ℕ → SimState → SimState)
    (δ : ℕ → Vector2f) (L : List ℕ)
    (hstep : ∀ j ∈ L, ∀ s : SimState, s.Bodies = B → s.Accels.length = n →
      (step j s).Bodies = B ∧ (step j s).Accels.length = n ∧
      (step j s).Accels.getD k default = (s.Accels.getD k default).add (δ j))
    (s : SimState) (hB : s.Bodies = B) (hn : s.Accels.length = n) :
    (L.foldl (fun acc i => step i acc) s).Bodies = B ∧
    (L.foldl (fun acc i => step i acc) s).Accels.length = n ∧
    (L.foldl (fun acc i => step i acc) s).Accels.getD k default =
      (s.Accels.getD k default).add
        ⟨(L.map (fun j => (δ j).x)).sum, (L.map (fun j => (δ j).y)).sum⟩ := by
  induction L generalizing s with
  | nil =>
    refine ⟨hB, hn, ?_⟩
    simp [Vector2f.add]
  | cons a L ih =>
    obtain ⟨h1, h2, h3⟩ := hstep a (List.mem_cons_self a L) s hB hn
    have hstep' : ∀ j ∈ L, ∀ s : SimState, s.Bodies = B → s.Accels.length = n →
        (step j s).Bodies = B ∧ (step j s).Accels.length = n ∧
        (step j s).Accels.getD k default = (s.Accels.getD k default).add (δ j) :=
      fun j hj => hstep j (List.mem_cons_of_mem a hj)
    obtain ⟨g1, g2, g3⟩ := ih hstep' (step a s) h1 h2
    refine ⟨g1, g2, ?_⟩
    rw [List.foldl_cons, g3, h3]
    simp only [Vector2f.add, List.map_cons, List.sum_cons]
    ext <;> simp only [] <;> ring

lemma sum_map_range' (f : ℕ → ℝ) (a m : ℕ) :
    ((List.range' a m).map f).sum = ∑ j ∈ Finset.Ico a (a + m), f j := by
  induction m generalizing a with
  | zero => simp
  | succ m ih =>
    have e : a + 1 + m = a + (m + 1) := by omega
    rw [List.range'_succ, List.map_cons, List.sum_cons, ih (a + 1),
      Finset.sum_eq_sum_Ico_succ_bot (by omega : a < a + (m + 1)), e]

/-- Entry `k` of `Accels` after the inner loop for a fixed `i`. -/
lemma innerLoop_spec (B : List body) (n i k : ℕ) (hk : k < n)
    (s : SimState) (hB : s.Bodies = B) (hn : s.Accels.length = n) :
    (innerLoop n i s).Bodies = B ∧ (innerLoop n i s).Accels.length = n ∧
    (innerLoop n i s).Accels.getD k default =
      (s.Accels.getD k default).add
        ⟨∑ j ∈ Finset.Ico (i + 1) (i + 1 + (n - (i + 1))), (pairDelta B i j k).x,
         ∑ j ∈ Finset.Ico (i + 1) (i + 1 + (n - (i + 1))), (pairDelta B i j k).y⟩ := by
  have h := foldl_accum B n k (pairStep i) (fun j => pairDelta B i j k)
    (List.range' (i + 1) (n - (i + 1))) ?_ s hB hn
  · simpa only [sum_map_range'] using h
  · intro j hj t htB htn
    have hij : i ≠ j := by
      have := (List.mem_range'_1.mp hj).1
      omega
    refine ⟨by simpa using htB, by simpa using htn, ?_⟩
    rw [pairStep_getD i j k t hij (by omega), htB]

/-- Entry `k` of `Accels` after the whole force loop. -/
lemma forceLoop_spec (B : List body) (n k : ℕ) (hk : k < n)
    (s : SimState) (hB : s.Bodies = B) (hn : s.Accels.length = n) :
    (forceLoop n s).Bodies = B ∧ (forceLoop n s).Accels.length = n ∧
    (forceLoop n s).Accels.getD k default =
      (s.Accels.getD k default).add
        ⟨∑ i ∈ Finset.range n, ∑ j ∈ Finset.Ico (i + 1) n, (pairDelta B i j k).x,
         ∑ i ∈ Finset.range n, ∑ j ∈ Finset.Ico (i + 1) n, (pairDelta B i j k).y⟩ := by
  have h := foldl_accum B n k (innerLoop n)
    (fun i => ⟨∑ j ∈ Finset.Ico (i + 1) (i + 1 + (n - (i + 1))), (pairDelta B i j k).x,
         ∑ j ∈ Finset.Ico (i + 1) (i + 1 + (n - (i + 1))), (pairDelta B i j k).y⟩)
    (List.range' 0 (n - 0)) (fun i _ t htB htn => innerLoop_spec B n i k hk t htB htn) s hB hn
  simp only [sum_map_range', Nat.sub_zero, Nat.zero_add] at h
  obtain ⟨h1, h2, h3⟩ := h
  refine ⟨h1, h2, ?_⟩
  simp only [forceLoop, forLoop, Nat.sub_zero]
  rw [h3, ← Finset.range_eq_Ico]
  have e : ∀ i ∈ Finset.range n, Finset.Ico (i + 1) (i + 1 + (n - (i + 1))) = Finset.Ico (i + 1) n := by
    intro i hi
    have := Finset.mem_range.mp hi
    congr 1
    omega
  congr 2
  · exact Finset.sum_congr rfl (fun i hi => by rw [e i hi])
  · exact Finset.sum_congr rfl (fun i hi => by rw [e i hi])

/-! ## From the pair loop to a sum over the other bodies -/

lemma pair_sum_split (a b : ℕ → ℕ → ℝ) (n k : ℕ) (hk : k < n) :
    ∑ i ∈ Finset.range n, ∑ j ∈ Finset.Ico (i + 1) n,
        ((if i = k then a i j else 0) - (if j = k then b i j else 0))
      = ∑ j ∈ Finset.Ico (k + 1) n, a k j - ∑ i ∈ Finset.range k, b i k := by
  simp only [Finset.sum_sub_distrib]
  congr 1
  · have : ∀ i ∈ Finset.range n, (∑ j ∈ Finset.Ico (i + 1) n, if i = k then a i j else 0)
        = if i = k then ∑ j ∈ Finset.Ico (i + 1) n, a i j else 0 := by
      intro i _
      by_cases h : i = k <;> simp [h]
    rw [Finset.sum_congr rfl this, Finset.sum_ite_eq' (Finset.range n) k]
    simp [hk]
  · have : ∀ i ∈ Finset.range n, (∑ j ∈ Finset.Ico (i + 1) n, if j = k then b i j else 0)
        = if i < k then b i k else 0 := by
      intro i _
      rw [Finset.sum_ite_eq' (Finset.Ico (i + 1) n) k]
      have : k ∈ Finset.Ico (i + 1) n ↔ i < k := by
        rw [Finset.mem_Ico]
        omega
      simp only [this]
    rw [Finset.sum_congr rfl this, ← Finset.sum_filter]
    congr 1
    ext x
    simp only [Finset.mem_filter, Finset.mem_range]
    omega

lemma sum_erase_split (f : ℕ → ℝ) (n k : ℕ) (hk : k < n) :
    ∑ j ∈ (Finset.range n).erase k, f j
      = ∑ j ∈ Finset.Ico (k + 1) n, f j + ∑ i ∈ Finset.range k, f i := by
  have e : (Finset.range n).erase k = Finset.Ico (k + 1) n ∪ Finset.range k := by
    ext x
    simp only [Finset.mem_erase, Finset.mem_range, Finset.mem_union, Finset.mem_Ico]
    omega
  rw [e, Finset.sum_union]
  rw [Finset.disjoint_left]
  intro x hx hx'
  simp only [Finset.mem_range, Finset.mem_Ico] at hx hx'
  omega

lemma separation_comm (p q : Vector2f) : separation p q = separation q p := by
  unfold separation
  congr 1
  ring

lemma getD_mem (Bodies : List body) (i : ℕ) (hi : i < Bodies.length) :
    Bodies.getD i default ∈ Bodies := by
  rw [List.getD_eq_getElem _ _ hi]
  exact List.getElem_mem hi

lemma getD_position_ne (Bodies : List body) (hp : DistinctPositions Bodies) (i j : ℕ)
    (hi : i < Bodies.length) (hj : j < Bodies.length) (hij : i ≠ j) :
    (Bodies.getD i default).position ≠ (Bodies.getD j default).position := by
  rw [List.getD_eq_getElem _ _ hi, List.getD_eq_getElem _ _ hj]
  have h := List.pairwise_iff_getElem.mp hp
  rcases Nat.lt_or_gt_of_ne hij with h1 | h1
  · exact h i j hi hj h1
  · exact (h j i hj hi h1).symm

lemma second_algebra (g mi mk a b r : ℝ) (hmk : mk ≠ 0) :
    -(g * mk * (a - b) / r ^ 3 * mi / mk) = g * mi * (b - a) / r ^ 3 := by
  by_cases hr : r = 0
  · simp [hr]
  · field_simp
    ring

/-- The second member's update is the pull on `j` from `i`, negated. -/
lemma second_member_eq (Bodies : List body) (i k : ℕ)
    (hmi : (Bodies.getD i default).mass ≠ 0) (hmk : (Bodies.getD k default).mass ≠ 0)
    (hp : (Bodies.getD i default).position ≠ (Bodies.getD k default).position) :
    -((pairAccel Bodies i k).x * (Bodies.getD i default).mass / (Bodies.getD k default).mass)
        = (newtonPull Bodies k i).x ∧
    -((pairAccel Bodies i k).y * (Bodies.getD i default).mass / (Bodies.getD k default).mass)
        = (newtonPull Bodies k i).y := by
  rw [pairAccel_eq Bodies i k hmi hp]
  unfold newtonPull
  simp only []
  rw [separation_comm (Bodies.getD k default).position]
  exact ⟨second_algebra _ _ _ _ _ _ hmk, second_algebra _ _ _ _ _ _ hmk⟩

lemma getD_replicate_zero (n k : ℕ) :
    (List.replicate n (⟨0, 0⟩ : Vector2f)).getD k default = ⟨0, 0⟩ := by
  by_cases h : k < n
  · simp [List.getD_eq_getElem?_getD, List.getElem?_replicate, h]
  · simp [List.getD_eq_getElem?_getD, List.getElem?_replicate, h]
    rfl

lemma forcePass_getD (Bodies : List body) (hm : NonzeroMasses Bodies)
    (hp : DistinctPositions Bodies) (k : ℕ) (hk : k < Bodies.length) :
    (forcePass Bodies.length Bodies).Accels.getD k default = newtonAccel Bodies k := by
  obtain ⟨-, -, h3⟩ := forceLoop_spec Bodies Bodies.length k hk
    { Bodies := Bodies, Accels := List.replicate Bodies.length ⟨0, 0⟩ } rfl (by simp)
  unfold forcePass
  rw [h3, getD_replicate_zero]
  have hmk := hm _ (getD_mem Bodies k hk)
  unfold newtonAccel pairDelta Vector2f.add
  simp only [zero_add]
  rw [pair_sum_split _ _ _ _ hk, pair_sum_split _ _ _ _ hk, sum_erase_split _ _ _ hk,
    sum_erase_split _ _ _ hk]
  ext
  · simp only [sub_eq_add_neg, ← Finset.sum_neg_distrib]
    congr 1
    · refine Finset.sum_congr rfl (fun j hj => ?_)
      have hj' := Finset.mem_Ico.mp hj
      rw [pairAccel_eq Bodies k j hmk (getD_position_ne Bodies hp k j hk hj'.2 (by omega))]
    · refine Finset.sum_congr rfl (fun i hi => ?_)
      have hi' := Finset.mem_range.mp hi
      exact (second_member_eq Bodies i k (hm _ (getD_mem Bodies i (by omega))) hmk
        (getD_position_ne Bodies hp i k (by omega) hk (by omega))).1
  · simp only [sub_eq_add_neg, ← Finset.sum_neg_distrib]
    congr 1
    · refine Finset.sum_congr rfl (fun j hj => ?_)
      have hj' := Finset.mem_Ico.mp hj
      rw [pairAccel_eq Bodies k j hmk (getD_position_ne Bodies hp k j hk hj'.2 (by omega))]
    · refine Finset.sum_congr rfl (fun i hi => ?_)
      have hi' := Finset.mem_range.mp hi
      exact (second_member_eq Bodies i k (hm _ (getD_mem Bodies i (by omega))) hmk
        (getD_position_ne Bodies hp i k (by omega) hk (by omega))).2

/-! ## The position and velocity loops -/

lemma foldl_Bodies (step : ℕ → SimState → SimState)
    (hstep : ∀ i s, (step i s).Bodies = s.Bodies) (L : List ℕ) (s : SimState) :
    (L.foldl (fun acc i => step i acc) s).Bodies = s.Bodies := by
  induction L generalizing s with
  | nil => rfl
  | cons a L ih => rw [List.foldl_cons, ih, hstep]

lemma innerLoop_Bodies (n i : ℕ) (s : SimState) : (innerLoop n i s).Bodies = s.Bodies :=
  foldl_Bodies (pairStep i) (fun j s => pairStep_Bodies i j s) _ s

lemma forceLoop_Bodies (n : ℕ) (s : SimState) : (forceLoop n s).Bodies = s.Bodies :=
  foldl_Bodies (innerLoop n) (fun i s => innerLoop_Bodies n i s) _ s

lemma forcePass_Bodies (n : ℕ) (Bodies : List body) : (forcePass n Bodies).Bodies = Bodies :=
  forceLoop_Bodies n _

lemma positionStep_eq (i : ℕ) (s : SimState) :
    positionStep i s =
      { s with Bodies := s.Bodies.modify (positionUpdate (s.Accels.getD i default)) i } := rfl

lemma velocityStep_eq (i : ℕ) (s : SimState) :
    velocityStep i s =
      { s with Bodies := s.Bodies.modify (velocityUpdate (s.Accels.getD i default)) i } := rfl

/-- A loop whose body rewrites entry `i` of the registry from `Accels[i]` rewrites
every visited entry once and leaves `Accels` alone. -/
lemma foldl_update (upd : Vector2f → body → body) (step : ℕ → SimState → SimState)
    (hstep : ∀ i s, step i s =
      { s with Bodies := s.Bodies.modify (upd (s.Accels.getD i default)) i })
    (L : List ℕ) (hL : L.Nodup) (s : SimState) (k : ℕ) :
    (L.foldl (fun acc i => step i acc) s).Accels = s.Accels ∧
    (L.foldl (fun acc i => step i acc) s).Bodies[k]? =
      if k ∈ L then (s.Bodies[k]?).map (upd (s.Accels.getD k default)) else s.Bodies[k]? := by
  induction L generalizing s with
  | nil => simp
  | cons a L ih =>
    obtain ⟨ha, hL'⟩ := List.nodup_cons.mp hL
    obtain ⟨h1, h2⟩ := ih hL' (step a s)
    rw [List.foldl_cons]
    refine ⟨by rw [h1, hstep], ?_⟩
    rw [h2, hstep]
    simp only [List.getElem?_modify, List.mem_cons]
    by_cases hk : k = a
    · subst hk
      simp [ha]
    · have hk' : ¬ a = k := fun h => hk h.symm
      simp [hk, hk']

lemma forLoop_update (upd : Vector2f → body → body) (step : ℕ → SimState → SimState)
    (hstep : ∀ i s, step i s =
      { s with Bodies := s.Bodies.modify (upd (s.Accels.getD i default)) i })
    (n : ℕ) (s : SimState) (k : ℕ) :
    (forLoop 0 n step s).Accels = s.Accels ∧
    (forLoop 0 n step s).Bodies[k]? =
      if k < n then (s.Bodies[k]?).map (upd (s.Accels.getD k default)) else s.Bodies[k]? := by
  have h := foldl_update upd step hstep (List.range' 0 (n - 0)) (List.nodup_range' 0 (n - 0)) s k
  simpa [forLoop, List.mem_range'_1] using h

/-- Entry `k` of the registry after one tick. -/
lemma tickState_getElem? (n : ℕ) (Bodies : List body) (k : ℕ) :
    (tickState n Bodies).Bodies[k]? =
      if k < n then
        (Bodies[k]?).map (fun b => velocityUpdate ((forcePass n Bodies).Accels.getD k default)
          (positionUpdate ((forcePass n Bodies).Accels.getD k default) b))
      else Bodies[k]? := by
  unfold tickState
  simp only []
  obtain ⟨v1, v2⟩ := forLoop_update velocityUpdate velocityStep velocityStep_eq n
    (forLoop 0 n positionStep (forcePass n Bodies)) k
  obtain ⟨p1, p2⟩ := forLoop_update positionUpdate positionStep positionStep_eq n
    (forcePass n Bodies) k
  rw [v2, p1, p2]
  have hB : (forcePass n Bodies).Bodies = Bodies := forcePass_Bodies n Bodies
  rw [hB]
  by_cases hk : k < n
  · simp only [hk, if_true, Option.map_map]
    rfl
  · simp [hk]

lemma sunEarthMoon_length : sunEarthMoon.length = 3 := by
  simp [sunEarthMoon, push_back]

lemma sunEarthMoon_masses : NonzeroMasses sunEarthMoon := by
  intro b hb
  simp only [sunEarthMoon, push_back, List.nil_append, List.cons_append, List.mem_cons,
    List.mem_singleton, List.not_mem_nil, or_false] at hb
  rcases hb with rfl | rfl | rfl <;> norm_num [CreatePlanet, CreateMoon]

lemma sunEarthMoon_distinct : DistinctPositions sunEarthMoon := by
  simp only [DistinctPositions, sunEarthMoon, push_back, List.nil_append, List.cons_append]
  norm_num [CreatePlanet, CreateMoon, Vector2f.ext_iff]

lemma tickState_length (n : ℕ) (Bodies : List body) :
    (tickState n Bodies).Bodies.length = Bodies.length := by
  have h : ∀ (step : ℕ → SimState → SimState),
      (∀ i s, (step i s).Bodies.length = s.Bodies.length) → ∀ (L : List ℕ) (s : SimState),
      (L.foldl (fun acc i => step i acc) s).Bodies.length = s.Bodies.length := by
    intro step hstep L
    induction L with
    | nil => intro s; rfl
    | cons a L ih => intro s; rw [List.foldl_cons, ih, hstep]
  unfold tickState forLoop
  simp only []
  rw [h velocityStep (fun i s => by simp [velocityStep]),
    h positionStep (fun i s => by simp [positionStep]), forcePass_Bodies]

lemma magnitude_algebra (g m d r : ℝ) :
    g * m * d / r ^ 3 = g * m / r ^ 2 * (d / r) := by
  rw [div_mul_div_comm, ← pow_succ]

/-- C1: for every registry whose masses are all non-zero and whose positions are pairwise
distinct, and every index `i` below the registry size, the entry `Accels[i]` left by the
force loop (started from all-zero `Accels`, floats read as exact reals) is the Newtonian
reference sum over all `j ≠ i` of `G * mass[j] * (position[j] - position[i]) /
|position[j] - position[i]|^3`; each summand is a pull of magnitude `G * mass[j] / radius^2`
along the unit vector from body `i` toward body `j`. -/
theorem forcePass_eq_newtonAccel (Bodies : List body) (hm : NonzeroMasses Bodies)
    (hp : DistinctPositions Bodies) (i : ℕ) (hi : i < Bodies.length) :
    (forcePass Bodies.length Bodies).Accels[i]? = some (newtonAccel Bodies i) ∧
    ∀ j, j < Bodies.length → j ≠ i →
      (newtonPull Bodies i j).x =
          G * (Bodies.getD j default).mass
              / separation (Bodies.getD i default).position (Bodies.getD j default).position ^ 2
            * (((Bodies.getD j default).position.x - (Bodies.getD i default).position.x)
              / separation (Bodies.getD i default).position (Bodies.getD j default).position) ∧
      (newtonPull Bodies i j).y =
          G * (Bodies.getD j default).mass
              / separation (Bodies.getD i default).position (Bodies.getD j default).position ^ 2
            * (((Bodies.getD j default).position.y - (Bodies.getD i default).position.y)
              / separation (Bodies.getD i default).position (Bodies.getD j default).position) ∧
      (((Bodies.getD j default).position.x - (Bodies.getD i default).position.x)
          / separation (Bodies.getD i default).position (Bodies.getD j default).position) ^ 2
        + (((Bodies.getD j default).position.y - (Bodies.getD i default).position.y)
          / separation (Bodies.getD i default).position (Bodies.getD j default).position) ^ 2
        = 1 := by
  constructor
  · have hlen : (forcePass Bodies.length Bodies).Accels.length = Bodies.length :=
      (forceLoop_spec Bodies Bodies.length i hi
        { Bodies := Bodies, Accels := List.replicate Bodies.length ⟨0, 0⟩ } rfl (by simp)).2.1
    have h := forcePass_getD Bodies hm hp i hi
    rw [List.getD_eq_getElem _ _ (by omega)] at h
    rw [List.getElem?_eq_getElem (by omega), h]
  · intro j hj hji
    have hne := getD_position_ne Bodies hp i j hi hj (Ne.symm hji)
    have hr := separation_ne_zero hne
    have hsq : separation (Bodies.getD i default).position (Bodies.getD j default).position ^ 2
        = ((Bodies.getD j default).position.x - (Bodies.getD i default).position.x) ^ 2
          + ((Bodies.getD j default).position.y - (Bodies.getD i default).position.y) ^ 2 := by
      unfold separation
      exact Real.sq_sqrt (by positivity)
    refine ⟨?_, ?_, ?_⟩
    · exact magnitude_algebra _ _ _ _
    · exact magnitude_algebra _ _ _ _
    · rw [div_pow, div_pow, ← add_div, ← hsq]
      exact div_self (pow_ne_zero 2 hr)

/-- Witness for C1 on the Sun, Earth, Moon registry, at the Earth. -/
theorem forcePass_eq_newtonAccel_witness :
    NonzeroMasses sunEarthMoon ∧ DistinctPositions sunEarthMoon ∧ 1 < sunEarthMoon.length ∧
    (forcePass sunEarthMoon.length sunEarthMoon).Accels[1]? = some (newtonAccel sunEarthMoon 1) :=
  ⟨sunEarthMoon_masses, sunEarthMoon_distinct, by simp [sunEarthMoon_length],
    (forcePass_eq_newtonAccel sunEarthMoon sunEarthMoon_masses sunEarthMoon_distinct 1
      (by simp [sunEarthMoon_length])).1⟩

lemma tick_getElem? (Bodies : List body) (i : ℕ) (hi : i < Bodies.length) :
    (tick Bodies)[i]? =
      some (velocityUpdate ((forcePass Bodies.length Bodies).Accels.getD i default)
        (positionUpdate ((forcePass Bodies.length Bodies).Accels.getD i default)
          (Bodies.getD i default))) := by
  unfold tick
  rw [tickState_getElem?, if_pos hi, List.getElem?_eq_getElem hi, List.getD_eq_getElem _ _ hi]
  rfl

/-- C2: for every registry and every body `i`, with `Accels` the array the force loop
computes from the registry held before the tick, one tick sets `position[i]` to
`oldPosition[i] + oldVelocity[i]*dt + 0.5*Accels[i]*dt^2` and `velocity[i]` to
`oldVelocity[i] + Accels[i]*dt`, with `dt = 0.00001`: both updates use the same
pre-update `Accels[i]` and the position update uses the pre-update velocity. -/
theorem tick_integrator_step (Bodies : List body) (i : ℕ) (hi : i < Bodies.length) :
    ∃ b : body, (tick Bodies)[i]? = some b ∧
      b.position.x = (Bodies.getD i default).position.x + (Bodies.getD i default).velocity.x * dt
        + 0.5 * ((forcePass Bodies.length Bodies).Accels.getD i default).x * dt ^ 2 ∧
      b.position.y = (Bodies.getD i default).position.y + (Bodies.getD i default).velocity.y * dt
        + 0.5 * ((forcePass Bodies.length Bodies).Accels.getD i default).y * dt ^ 2 ∧
      b.velocity.x = (Bodies.getD i default).velocity.x
        + ((forcePass Bodies.length Bodies).Accels.getD i default).x * dt ∧
      b.velocity.y = (Bodies.getD i default).velocity.y
        + ((forcePass Bodies.length Bodies).Accels.getD i default).y * dt ∧
      dt = 0.00001 := by
  refine ⟨_, tick_getElem? Bodies i hi, ?_, ?_, ?_, ?_, rfl⟩
  · simp only [velocityUpdate, positionUpdate, Vector2f.add, Vector2f.mulr, Vector2f.mull]
    ring
  · simp only [velocityUpdate, positionUpdate, Vector2f.add, Vector2f.mulr, Vector2f.mull]
    ring
  · simp only [velocityUpdate, positionUpdate, Vector2f.add, Vector2f.mulr, Vector2f.mull]
  · simp only [velocityUpdate, positionUpdate, Vector2f.add, Vector2f.mulr, Vector2f.mull]

/-- Witness for C2 on the Sun, Earth, Moon registry, at the Moon. -/
theorem tick_integrator_step_witness :
    2 < sunEarthMoon.length ∧
    ∃ b : body, (tick sunEarthMoon)[2]? = some b ∧
      b.position.x = (sunEarthMoon.getD 2 default).position.x
        + (sunEarthMoon.getD 2 default).velocity.x * dt
        + 0.5 * ((forcePass sunEarthMoon.length sunEarthMoon).Accels.getD 2 default).x * dt ^ 2 ∧
      b.position.y = (sunEarthMoon.getD 2 default).position.y
        + (sunEarthMoon.getD 2 default).velocity.y * dt
        + 0.5 * ((forcePass sunEarthMoon.length sunEarthMoon).Accels.getD 2 default).y * dt ^ 2 ∧
      b.velocity.x = (sunEarthMoon.getD 2 default).velocity.x
        + ((forcePass sunEarthMoon.length sunEarthMoon).Accels.getD 2 default).x * dt ∧
      b.velocity.y = (sunEarthMoon.getD 2 default).velocity.y
        + ((forcePass sunEarthMoon.length sunEarthMoon).Accels.getD 2 default).y * dt ∧
      dt = 0.00001 :=
  ⟨by simp [sunEarthMoon_length],
    tick_integrator_step sunEarthMoon 2 (by simp [sunEarthMoon_length])⟩

lemma third_algebra (f c mi mj : ℝ) (hmi : mi ≠ 0) :
    -(f * c / mi * mi / mj) = -f * c / mj := by
  rw [div_mul_cancel₀ _ hmi]
  ring

lemma third_balance (f c mi mj : ℝ) (hmi : mi ≠ 0) (hmj : mj ≠ 0) :
    mi * (f * c / mi) = -(mj * -(f * c / mi * mi / mj)) := by
  field_simp

/-- C3: for every pair `i < j` of bodies with non-zero masses and distinct positions, one
run of the inner loop body adds `(ax, ay) = (force*cos(angle)/mass[i], force*sin(angle)/mass[i])`
to `Accels[i]` and adds `(-force*cos(angle)/mass[j], -force*sin(angle)/mass[j])` to
`Accels[j]` (it subtracts `(ax*mass[i]/mass[j], ay*mass[i]/mass[j])`), with `force` and
`angle` the values of `Gravity` and `Angle` for the pair; the two contributions satisfy
`mass[i] * (contribution to i) = -(mass[j] * (contribution to j))` componentwise, and the
divisor `radius * radius` of `Gravity` is non-zero. -/
theorem pairStep_third_law (s : SimState) (i j : ℕ) (hij : i < j) (hj : j < s.Bodies.length)
    (hlen : s.Accels.length = s.Bodies.length)
    (hmi : (s.Bodies.getD i default).mass ≠ 0) (hmj : (s.Bodies.getD j default).mass ≠ 0)
    (hp : (s.Bodies.getD i default).position ≠ (s.Bodies.getD j default).position)
    (force angle : ℝ)
    (hforce : force = Gravity (s.Bodies.getD i default).position.x
      (s.Bodies.getD j default).position.x (s.Bodies.getD i default).position.y
      (s.Bodies.getD j default).position.y (s.Bodies.getD i default).mass
      (s.Bodies.getD j default).mass)
    (hangle : angle = Angle (s.Bodies.getD i default).position.x
      (s.Bodies.getD j default).position.x (s.Bodies.getD i default).position.y
      (s.Bodies.getD j default).position.y) :
    ∃ ci cj : Vector2f,
      (pairStep i j s).Accels[i]? = some ((s.Accels.getD i default).add ci) ∧
      (pairStep i j s).Accels[j]? = some ((s.Accels.getD j default).add cj) ∧
      ci = ⟨force * Real.cos angle / (s.Bodies.getD i default).mass,
            force * Real.sin angle / (s.Bodies.getD i default).mass⟩ ∧
      cj = ⟨-(ci.x * (s.Bodies.getD i default).mass / (s.Bodies.getD j default).mass),
            -(ci.y * (s.Bodies.getD i default).mass / (s.Bodies.getD j default).mass)⟩ ∧
      cj = ⟨-force * Real.cos angle / (s.Bodies.getD j default).mass,
            -force * Real.sin angle / (s.Bodies.getD j default).mass⟩ ∧
      (s.Bodies.getD i default).mass * ci.x = -((s.Bodies.getD j default).mass * cj.x) ∧
      (s.Bodies.getD i default).mass * ci.y = -((s.Bodies.getD j default).mass * cj.y) ∧
      separation (s.Bodies.getD i default).position (s.Bodies.getD j default).position
        * separation (s.Bodies.getD i default).position (s.Bodies.getD j default).position
        ≠ 0 := by
  have hne : i ≠ j := by omega
  have hgi := pairStep_getD i j i s hne (by omega)
  have hgj := pairStep_getD i j j s hne (by omega)
  have hli : i < (pairStep i j s).Accels.length := by rw [pairStep_length]; omega
  have hlj : j < (pairStep i j s).Accels.length := by rw [pairStep_length]; omega
  rw [List.getD_eq_getElem _ _ hli] at hgi
  rw [List.getD_eq_getElem _ _ hlj] at hgj
  have hji : ¬ j = i := fun h => hne h.symm
  refine ⟨⟨force * Real.cos angle / (s.Bodies.getD i default).mass,
      force * Real.sin angle / (s.Bodies.getD i default).mass⟩,
    ⟨-(force * Real.cos angle / (s.Bodies.getD i default).mass * (s.Bodies.getD i default).mass
        / (s.Bodies.getD j default).mass),
      -(force * Real.sin angle / (s.Bodies.getD i default).mass * (s.Bodies.getD i default).mass
        / (s.Bodies.getD j default).mass)⟩, ?_, ?_, rfl, rfl, ?_, ?_, ?_,
    mul_ne_zero (separation_ne_zero hp) (separation_ne_zero hp)⟩
  · rw [List.getElem?_eq_getElem hli, hgi]
    simp only [pairDelta, pairAccel, if_true, if_neg hji, sub_zero, ← hforce, ← hangle]
  · rw [List.getElem?_eq_getElem hlj, hgj]
    simp only [pairDelta, pairAccel, if_true, if_neg hne, zero_sub, ← hforce, ← hangle]
  · ext
    · exact third_algebra _ _ _ _ hmi
    · exact third_algebra _ _ _ _ hmi
  · exact third_balance _ _ _ _ hmi hmj
  · exact third_balance _ _ _ _ hmi hmj

/-- Witness for C3 on the Sun, Earth, Moon registry, at the pair Earth, Moon. -/
theorem pairStep_third_law_witness :
    ∃ ci cj : Vector2f,
      (pairStep 1 2 ⟨sunEarthMoon, List.replicate 3 ⟨0, 0⟩⟩).Accels[1]? = some ci ∧
      (pairStep 1 2 ⟨sunEarthMoon, List.replicate 3 ⟨0, 0⟩⟩).Accels[2]? = some cj ∧
      (sunEarthMoon.getD 1 default).mass * ci.x = -((sunEarthMoon.getD 2 default).mass * cj.x) ∧
      (sunEarthMoon.getD 1 default).mass * ci.y = -((sunEarthMoon.getD 2 default).mass * cj.y) := by
  obtain ⟨ci, cj, h1, h2, -, -, -, h3, h4, -⟩ :=
    pairStep_third_law ⟨sunEarthMoon, List.replicate 3 ⟨0, 0⟩⟩ 1 2 (by decide)
      (by simp [sunEarthMoon_length]) (by simp [sunEarthMoon_length])
      (by norm_num [sunEarthMoon, push_back, CreatePlanet, CreateMoon])
      (by norm_num [sunEarthMoon, push_back, CreatePlanet, CreateMoon])
      (by norm_num [sunEarthMoon, push_back, CreatePlanet, CreateMoon, Vector2f.ext_iff])
      _ _ rfl rfl
  refine ⟨ci, cj, ?_, ?_, h3, h4⟩
  · rw [h1]
    simp [Vector2f.add]
  · rw [h2]
    simp [Vector2f.add]

/-! ## Frame lemmas -/

lemma tick_length (Bodies : List body) : (tick Bodies).length = Bodies.length :=
  tickState_length _ _

lemma tick_map_frame {α : Type} (f : body → α)
    (hf : ∀ A A' b, f (velocityUpdate A (positionUpdate A' b)) = f b) (Bodies : List body) :
    (tick Bodies).map f = Bodies.map f := by
  apply List.ext_getElem?
  intro k
  simp only [List.getElem?_map]
  unfold tick
  rw [tickState_getElem?]
  by_cases hk : k < Bodies.length
  · rw [if_pos hk, Option.map_map]
    congr 1
    funext b
    exact hf _ _ b
  · rw [if_neg hk]

lemma tick_masses (Bodies : List body) (hm : NonzeroMasses Bodies) :
    NonzeroMasses (tick Bodies) := by
  intro b hb
  have h1 : b.mass ∈ (tick Bodies).map (fun b => b.mass) := List.mem_map_of_mem _ hb
  rw [tick_map_frame (fun b => b.mass) (fun _ _ _ => rfl)] at h1
  obtain ⟨b', hb', he⟩ := List.mem_map.mp h1
  rw [← he]
  exact hm b' hb'

lemma ticks_masses (k : ℕ) (Bodies : List body) (hm : NonzeroMasses Bodies) :
    NonzeroMasses (ticks k Bodies) := by
  induction k generalizing Bodies with
  | zero => exact hm
  | succ k ih => exact ih (tick Bodies) (tick_masses Bodies hm)

/-! ## Momentum -/

lemma pairDelta_balance (Bodies : List body) (hm : NonzeroMasses Bodies) (i j : ℕ)
    (hi : i < Bodies.length) (hj : j < Bodies.length) :
    ∑ k ∈ Finset.range Bodies.length, (Bodies.getD k default).mass * (pairDelta Bodies i j k).x = 0 ∧
    ∑ k ∈ Finset.range Bodies.length, (Bodies.getD k default).mass * (pairDelta Bodies i j k).y = 0 := by
  have hmj := hm _ (getD_mem Bodies j hj)
  have e : ∀ (a : ℝ) (mi mj : ℝ), mj ≠ 0 → mi * a - mj * (a * mi / mj) = 0 := by
    intro a mi mj h
    field_simp
    ring
  unfold pairDelta
  simp only [mul_sub, Finset.sum_sub_distrib, mul_ite, mul_zero, Finset.sum_ite_eq,
    Finset.mem_range, if_pos hi, if_pos hj]
  exact ⟨e _ _ _ hmj, e _ _ _ hmj⟩

lemma weightedAccel_forcePass (Bodies : List body) (hm : NonzeroMasses Bodies) :
    weightedAccel Bodies (forcePass Bodies.length Bodies).Accels = ⟨0, 0⟩ := by
  have hget : ∀ k ∈ Finset.range Bodies.length,
      (forcePass Bodies.length Bodies).Accels.getD k default =
        ⟨∑ i ∈ Finset.range Bodies.length, ∑ j ∈ Finset.Ico (i + 1) Bodies.length,
            (pairDelta Bodies i j k).x,
         ∑ i ∈ Finset.range Bodies.length, ∑ j ∈ Finset.Ico (i + 1) Bodies.length,
            (pairDelta Bodies i j k).y⟩ := by
    intro k hk
    obtain ⟨-, -, h3⟩ := forceLoop_spec Bodies Bodies.length k (Finset.mem_range.mp hk)
      { Bodies := Bodies, Accels := List.replicate Bodies.length ⟨0, 0⟩ } rfl (by simp)
    unfold forcePass
    rw [h3, getD_replicate_zero]
    simp [Vector2f.add]
  unfold weightedAccel
  ext
  · simp only []
    rw [Finset.sum_congr rfl (fun k hk => by rw [hget k hk])]
    simp only [Finset.mul_sum]
    rw [Finset.sum_comm]
    refine Finset.sum_eq_zero (fun i hi => ?_)
    rw [Finset.sum_comm]
    refine Finset.sum_eq_zero (fun j hj => ?_)
    exact (pairDelta_balance Bodies hm i j (Finset.mem_range.mp hi) (Finset.mem_Ico.mp hj).2).1
  · simp only []
    rw [Finset.sum_congr rfl (fun k hk => by rw [hget k hk])]
    simp only [Finset.mul_sum]
    rw [Finset.sum_comm]
    refine Finset.sum_eq_zero (fun i hi => ?_)
    rw [Finset.sum_comm]
    refine Finset.sum_eq_zero (fun j hj => ?_)
    exact (pairDelta_balance Bodies hm i j (Finset.mem_range.mp hi) (Finset.mem_Ico.mp hj).2).2

lemma momentum_tick (Bodies : List body) (hm : NonzeroMasses Bodies) :
    momentum (tick Bodies) = momentum Bodies := by
  have hw := weightedAccel_forcePass Bodies hm
  have hwx := congrArg Vector2f.x hw
  have hwy := congrArg Vector2f.y hw
  unfold weightedAccel at hwx hwy
  simp only [] at hwx hwy
  have hget : ∀ i ∈ Finset.range Bodies.length, (tick Bodies).getD i default =
      velocityUpdate ((forcePass Bodies.length Bodies).Accels.getD i default)
        (positionUpdate ((forcePass Bodies.length Bodies).Accels.getD i default)
          (Bodies.getD i default)) := by
    intro i hi
    simp only [List.getD_eq_getElem?_getD (tick Bodies),
      tick_getElem? Bodies i (Finset.mem_range.mp hi), Option.getD_some]
  unfold momentum
  rw [tick_length]
  ext
  · simp only []
    rw [Finset.sum_congr rfl (fun i hi => by rw [hget i hi])]
    simp only [velocityUpdate, positionUpdate, Vector2f.add, Vector2f.mulr, mul_add,
      Finset.sum_add_distrib, ← mul_assoc, ← Finset.sum_mul, hwx]
    simp
  · simp only []
    rw [Finset.sum_congr rfl (fun i hi => by rw [hget i hi])]
    simp only [velocityUpdate, positionUpdate, Vector2f.add, Vector2f.mulr, mul_add,
      Finset.sum_add_distrib, ← mul_assoc, ← Finset.sum_mul, hwy]
    simp

lemma momentum_ticks (k : ℕ) (Bodies : List body) (hm : NonzeroMasses Bodies) :
    momentum (ticks k Bodies) = momentum Bodies := by
  induction k generalizing Bodies with
  | zero => rfl
  | succ k ih =>
    show momentum (ticks k (tick Bodies)) = momentum Bodies
    rw [ih (tick Bodies) (tick_masses Bodies hm), momentum_tick Bodies hm]

/-- C8: for every registry, one tick returns a registry with the same number of bodies
in the same order and leaves every body's name, mass and shape unchanged, so only the
position and velocity fields are modified; the force pass modifies no field of any body. -/
theorem tick_frame (Bodies : List body) :
    (tick Bodies).length = Bodies.length ∧
    (tick Bodies).map (fun b => b.name) = Bodies.map (fun b => b.name) ∧
    (tick Bodies).map (fun b => b.mass) = Bodies.map (fun b => b.mass) ∧
    (tick Bodies).map (fun b => b.square) = Bodies.map (fun b => b.square) ∧
    (forcePass Bodies.length Bodies).Bodies = Bodies :=
  ⟨tick_length Bodies, tick_map_frame (fun b => b.name) (fun _ _ _ => rfl) Bodies,
    tick_map_frame (fun b => b.mass) (fun _ _ _ => rfl) Bodies,
    tick_map_frame (fun b => b.square) (fun _ _ _ => rfl) Bodies, forcePass_Bodies _ Bodies⟩

/-- C4: for every registry with non-zero masses and every number of ticks `k` during
which no two positions coincide, read over exact real arithmetic, the mass-weighted sum
of `Accels` is the zero vector after the force pass of every one of the `k` ticks, and
the total momentum after `k` ticks equals the initial total momentum; in each of these
force passes the radius of every pair is non-zero. -/
theorem momentum_conserved (Bodies : List body) (k : ℕ) (hm : NonzeroMasses Bodies)
    (hp : ∀ t, t < k → DistinctPositions (ticks t Bodies)) :
    (∀ t, t < k → weightedAccel (ticks t Bodies)
      (forcePass (ticks t Bodies).length (ticks t Bodies)).Accels = ⟨0, 0⟩) ∧
    momentum (ticks k Bodies) = momentum Bodies ∧
    (∀ t, t < k → ∀ i j, i < j → j < (ticks t Bodies).length →
      separation ((ticks t Bodies).getD i default).position
        ((ticks t Bodies).getD j default).position ≠ 0) :=
  ⟨fun t _ => weightedAccel_forcePass _ (ticks_masses t Bodies hm), momentum_ticks k Bodies hm,
    fun t ht i j hij hj => separation_ne_zero
      (getD_position_ne _ (hp t ht) i j (by omega) hj (by omega))⟩

/-- Witness for C4: one tick of the Sun, Earth, Moon registry. -/
theorem momentum_conserved_witness :
    NonzeroMasses sunEarthMoon ∧ DistinctPositions (ticks 0 sunEarthMoon) ∧
    momentum (ticks 1 sunEarthMoon) = momentum sunEarthMoon :=
  ⟨sunEarthMoon_masses, sunEarthMoon_distinct,
    (momentum_conserved sunEarthMoon 1 sunEarthMoon_masses
      (fun t ht => by
        have h0 : t = 0 := by omega
        subst h0
        exact sunEarthMoon_distinct)).2.1⟩

/-! ## Orbital initialiser -/

lemma G_pos : 0 < G := by
  unfold G PI
  norm_num

/-- C5: for every name, radius, mass, colour and distance, `CreatePlanet` returns a body
with position `(distance, 0)` and mass equal to the mass argument, whose velocity is
`(0, 0)` when `distance == 0` and otherwise `(0, -sqrt(M * G / distance))`, where `M` is
the mass `main` gives the orbited Sun; for `distance > 0` this velocity is perpendicular
to the position vector and its squared speed is `G * M / distance`. -/
theorem CreatePlanet_spec (name : String) (radius mass distance : ℝ) (color : Color)
    (moon : Bool) :
    (CreatePlanet name radius mass distance color moon).position = ⟨distance, 0⟩ ∧
    (CreatePlanet name radius mass distance color moon).mass = mass ∧
    (CreatePlanet name radius mass distance color moon).velocity =
      (if distance = 0 then ⟨0, 0⟩ else ⟨0, -Real.sqrt (M * G / distance)⟩) ∧
    (setup.getD 0 default).mass = M ∧
    (0 < distance →
      (CreatePlanet name radius mass distance color moon).position.x
          * (CreatePlanet name radius mass distance color moon).velocity.x
        + (CreatePlanet name radius mass distance color moon).position.y
          * (CreatePlanet name radius mass distance color moon).velocity.y = 0 ∧
      (CreatePlanet name radius mass distance color moon).velocity.x ^ 2
        + (CreatePlanet name radius mass distance color moon).velocity.y ^ 2
        = G * M / distance) := by
  refine ⟨?_, ?_, ?_, ?_, ?_⟩
  · unfold CreatePlanet
    by_cases h : distance = 0 <;> simp [h]
  · unfold CreatePlanet
    by_cases h : distance = 0 <;> simp [h]
  · unfold CreatePlanet
    by_cases h : distance = 0 <;> simp [h]
  · simp [setup, push_back, CreatePlanet, M]
  · intro hd
    have hne : distance ≠ 0 := ne_of_gt hd
    have hnn : 0 ≤ M * G / distance := by
      have := G_pos
      unfold M
      positivity
    unfold CreatePlanet
    simp only [hne, if_false]
    constructor
    · simp
    · simp only [neg_sq]
      rw [Real.sq_sqrt hnn]
      ring

/-- Witness for C5 at the Earth of `main`: distance 1. -/
theorem CreatePlanet_spec_witness :
    (0 : ℝ) < 1 ∧
    (CreatePlanet "Earth" 63.71 3e-6 1 Color.Blue false).velocity.x ^ 2
      + (CreatePlanet "Earth" 63.71 3e-6 1 Color.Blue false).velocity.y ^ 2 = G * M / 1 :=
  ⟨by norm_num,
    ((CreatePlanet_spec "Earth" 63.71 3e-6 1 Color.Blue false).2.2.2.2 (by norm_num)).2⟩

/-- C6: for every moon mass, `parentMass > 0`, `parentDistance > 0` and
`distance > parentDistance`, the velocity of the body `CreateMoon` returns is the vector
sum of the velocity `CreatePlanet` gives a planet at `parentDistance` and the moon's own
orbital velocity around the parent, `(0, -sqrt(G * parentMass / (distance - parentDistance)))`,
whose squared speed is `G * parentMass / (distance - parentDistance)`; the returned
position is the heliocentric `(distance, 0)`. -/
theorem CreateMoon_velocity (name parentName : String)
    (radius mass parentRadius parentMass distance parentDistance : ℝ)
    (color parentColor : Color) (moon : Bool)
    (hpm : 0 < parentMass) (hpd : 0 < parentDistance) (hd : parentDistance < distance) :
    (CreateMoon name radius mass parentMass distance parentDistance color).velocity =
      (CreatePlanet parentName parentRadius parentMass parentDistance parentColor moon).velocity.add
        ⟨0, -Real.sqrt (G * parentMass / (distance - parentDistance))⟩ ∧
    (CreateMoon name radius mass parentMass distance parentDistance color).position
      = ⟨distance, 0⟩ ∧
    (CreateMoon name radius mass parentMass distance parentDistance color).mass = mass ∧
    Real.sqrt (G * parentMass / (distance - parentDistance)) ^ 2
      = G * parentMass / (distance - parentDistance) := by
  have hne : parentDistance ≠ 0 := ne_of_gt hpd
  have hnn : 0 ≤ G * parentMass / (distance - parentDistance) := by
    have := G_pos
    have : 0 < distance - parentDistance := by linarith
    positivity
  refine ⟨?_, ?_, ?_, Real.sq_sqrt hnn⟩
  · unfold CreateMoon CreatePlanet
    simp [hne, Vector2f.add]
  · rfl
  · rfl

/-- Witness for C6 at the Moon of `main`: parent Earth at distance 1. -/
theorem CreateMoon_velocity_witness :
    (0 : ℝ) < 3e-6 ∧ (0 : ℝ) < 1 ∧ (1 : ℝ) < 1.00257 ∧
    (CreateMoon "Moon" 17.38 3.69e-8 3e-6 1.00257 1 Color.White).velocity =
      (CreatePlanet "Earth" 63.71 3e-6 1 Color.Blue false).velocity.add
        ⟨0, -Real.sqrt (G * 3e-6 / (1.00257 - 1))⟩ :=
  ⟨by norm_num, by norm_num, by norm_num,
    (CreateMoon_velocity "Moon" "Earth" 17.38 3.69e-8 63.71 3e-6 1.00257 1 Color.White Color.Blue
      false (by norm_num) (by norm_num) (by norm_num)).1⟩

/-! ## Setup -/

@[simp] lemma CreatePlanet_name (name : String) (radius mass distance : ℝ) (color : Color)
    (moon : Bool) : (CreatePlanet name radius mass distance color moon).name = name := by
  unfold CreatePlanet
  by_cases h : distance = 0 <;> simp [h]

@[simp] lemma CreatePlanet_position (name : String) (radius mass distance : ℝ) (color : Color)
    (moon : Bool) :
    (CreatePlanet name radius mass distance color moon).position = ⟨distance, 0⟩ := by
  unfold CreatePlanet
  by_cases h : distance = 0 <;> simp [h]

@[simp] lemma CreatePlanet_mass (name : String) (radius mass distance : ℝ) (color : Color)
    (moon : Bool) : (CreatePlanet name radius mass distance color moon).mass = mass := by
  unfold CreatePlanet
  by_cases h : distance = 0 <;> simp [h]

@[simp] lemma CreateMoon_name (name : String)
    (radius mass parentMass distance parentDistance : ℝ) (color : Color) :
    (CreateMoon name radius mass parentMass distance parentDistance color).name = name := rfl

@[simp] lemma CreateMoon_position (name : String)
    (radius mass parentMass distance parentDistance : ℝ) (color : Color) :
    (CreateMoon name radius mass parentMass distance parentDistance color).position
      = ⟨distance, 0⟩ := rfl

@[simp] lemma CreateMoon_mass (name : String)
    (radius mass parentMass distance parentDistance : ℝ) (color : Color) :
    (CreateMoon name radius mass parentMass distance parentDistance color).mass = mass := rfl

lemma setup_names : setup.map (fun b => b.name) =
    ["Sun", "Mercury", "Venus", "Earth", "Moon", "Mars", "Jupiter", "Ganymede", "Callisto",
      "Saturn", "Titan", "Uranus", "Neptune"] := by
  simp [setup, push_back]

lemma setup_positions : setup.map (fun b => b.position) =
    [⟨0, 0⟩, ⟨0.4, 0⟩, ⟨0.7, 0⟩, ⟨1, 0⟩, ⟨1.00257, 0⟩, ⟨1.5, 0⟩, ⟨5.2, 0⟩, ⟨5.215, 0⟩,
      ⟨5.2055, 0⟩, ⟨9.6, 0⟩, ⟨9.61816, 0⟩, ⟨19.2, 0⟩, ⟨30, 0⟩] := by
  simp [setup, push_back]

lemma setup_masses : setup.map (fun b => b.mass) =
    [1, 1.66e-7, 2.44e-6, 3e-6, 3.69e-8, 3.22e-7, 9.5e-4, 9.9e-5, 5.41e-6, 2.86e-4, 6.76e-8,
      4.36e-5, 5.13e-5] := by
  simp [setup, push_back]

lemma setup_length : setup.length = 13 := by
  have h := congrArg List.length setup_names
  simpa using h

lemma setup_mass_pos : ∀ b ∈ setup, 0 < b.mass := by
  intro b hb
  have h1 : b.mass ∈ setup.map (fun b => b.mass) := List.mem_map_of_mem _ hb
  rw [setup_masses] at h1
  simp only [List.mem_cons, List.mem_singleton, List.not_mem_nil, or_false] at h1
  rcases h1 with h | h | h | h | h | h | h | h | h | h | h | h | h <;> rw [h] <;> norm_num

lemma setup_distinct : DistinctPositions setup := by
  unfold DistinctPositions
  have h : (setup.map (fun b => b.position)).Pairwise (fun p q => p ≠ q) := by
    rw [setup_positions]
    simp only [List.pairwise_cons, List.mem_cons, List.mem_singleton, forall_eq_or_imp,
      forall_eq, ne_eq, Vector2f.mk.injEq, List.not_mem_nil, List.Pairwise.nil]
    norm_num
  exact List.pairwise_map.mp h

/-- C9: in the registry that setup builds (Sun, Mercury, Venus, Earth, Moon, Mars, Jupiter,
Ganymede, Callisto, Saturn, Titan, Uranus, Neptune) every mass is strictly positive and no
two bodies share a position, so in the first tick's force pass, which reads this registry
unchanged, the radius is non-zero for every pair `i < j` and every divisor
(`radius * radius`, `mass[i]`, `mass[j]`) is non-zero. -/
theorem setup_division_safe :
    setup.map (fun b => b.name) =
      ["Sun", "Mercury", "Venus", "Earth", "Moon", "Mars", "Jupiter", "Ganymede", "Callisto",
        "Saturn", "Titan", "Uranus", "Neptune"] ∧
    (∀ b ∈ setup, 0 < b.mass) ∧
    DistinctPositions setup ∧
    (forcePass setup.length setup).Bodies = setup ∧
    ∀ i j, i < j → j < setup.length →
      Real.sqrt (((setup.getD j default).position.x - (setup.getD i default).position.x) ^ 2
        + ((setup.getD j default).position.y - (setup.getD i default).position.y) ^ 2) ≠ 0 ∧
      Real.sqrt (((setup.getD j default).position.x - (setup.getD i default).position.x) ^ 2
        + ((setup.getD j default).position.y - (setup.getD i default).position.y) ^ 2)
        * Real.sqrt (((setup.getD j default).position.x - (setup.getD i default).position.x) ^ 2
        + ((setup.getD j default).position.y - (setup.getD i default).position.y) ^ 2) ≠ 0 ∧
      (setup.getD i default).mass ≠ 0 ∧ (setup.getD j default).mass ≠ 0 := by
  refine ⟨setup_names, setup_mass_pos, setup_distinct, forcePass_Bodies _ _, ?_⟩
  intro i j hij hj
  have hne := getD_position_ne setup setup_distinct i j (by omega) hj (by omega)
  have hr := separation_ne_zero hne
  exact ⟨hr, mul_ne_zero hr hr, ne_of_gt (setup_mass_pos _ (getD_mem setup i (by omega))),
    ne_of_gt (setup_mass_pos _ (getD_mem setup j hj))⟩

/-! ## Two bodies -/

lemma twoBody_length (sunRadius planetRadius m r : ℝ) (planetName : String)
    (sunColor planetColor : Color) :
    (twoBody sunRadius planetRadius m r planetName sunColor planetColor).length = 2 := by
  simp [twoBody, push_back]

/-- C10: for every distance `r > 0` and every planet mass `m > 0`, in the two-body registry
of a Sun of mass 1 at distance 0 and a planet of mass `m` at distance `r`, the acceleration
the force loop assigns to the planet is `(-G*1/r^2, 0)`: it points from the planet to the
anchor, is perpendicular to the planet's initial velocity, and its magnitude equals
`|velocity|^2 / r`, the centripetal acceleration of a circular orbit of radius `r`; the
constant `M` of `CreatePlanet` equals the anchor's mass. -/
theorem two_body_circular_orbit (sunRadius planetRadius m r : ℝ) (planetName : String)
    (sunColor planetColor : Color) (hr : 0 < r) (hm : 0 < m) :
    ∃ a : Vector2f,
      (forcePass 2 (twoBody sunRadius planetRadius m r planetName sunColor planetColor)).Accels[1]?
        = some a ∧
      a = ⟨-G * 1 / r ^ 2, 0⟩ ∧
      (∃ c : ℝ, 0 < c ∧
        a.x = c * (((twoBody sunRadius planetRadius m r planetName sunColor planetColor).getD 0
                default).position.x
            - ((twoBody sunRadius planetRadius m r planetName sunColor planetColor).getD 1
                default).position.x) ∧
        a.y = c * (((twoBody sunRadius planetRadius m r planetName sunColor planetColor).getD 0
                default).position.y
            - ((twoBody sunRadius planetRadius m r planetName sunColor planetColor).getD 1
                default).position.y)) ∧
      a.x * ((twoBody sunRadius planetRadius m r planetName sunColor planetColor).getD 1
            default).velocity.x
        + a.y * ((twoBody sunRadius planetRadius m r planetName sunColor planetColor).getD 1
            default).velocity.y = 0 ∧
      Real.sqrt (a.x ^ 2 + a.y ^ 2) =
        (((twoBody sunRadius planetRadius m r planetName sunColor planetColor).getD 1
            default).velocity.x ^ 2
          + ((twoBody sunRadius planetRadius m r planetName sunColor planetColor).getD 1
            default).velocity.y ^ 2) / r ∧
      M = ((twoBody sunRadius planetRadius m r planetName sunColor planetColor).getD 0
            default).mass := by
  have hG := G_pos
  have hr0 : r ≠ 0 := ne_of_gt hr
  have hlen := twoBody_length sunRadius planetRadius m r planetName sunColor planetColor
  have hmass : NonzeroMasses (twoBody sunRadius planetRadius m r planetName sunColor planetColor) := by
    intro b hb
    simp only [twoBody, push_back, List.nil_append, List.cons_append, List.mem_cons,
      List.mem_singleton, List.not_mem_nil, or_false] at hb
    rcases hb with rfl | rfl
    · simp
    · simpa using ne_of_gt hm
  have hdist : DistinctPositions
      (twoBody sunRadius planetRadius m r planetName sunColor planetColor) := by
    simp only [DistinctPositions, twoBody, push_back, List.nil_append, List.cons_append]
    simp [Vector2f.ext_iff, hr0.symm]
  have hacc := forcePass_getD _ hmass hdist 1 (by omega)
  rw [hlen] at hacc
  have hlenA : (forcePass 2
      (twoBody sunRadius planetRadius m r planetName sunColor planetColor)).Accels.length = 2 :=
    (forceLoop_spec _ 2 1 (by omega)
      { Bodies := twoBody sunRadius planetRadius m r planetName sunColor planetColor,
        Accels := List.replicate 2 ⟨0, 0⟩ } rfl (by simp)).2.1
  have hb0 : (twoBody sunRadius planetRadius m r planetName sunColor planetColor).getD 0 default
      = CreatePlanet "Sun" sunRadius 1 0 sunColor false := by
    simp [twoBody, push_back]
  have hb1 : (twoBody sunRadius planetRadius m r planetName sunColor planetColor).getD 1 default
      = CreatePlanet planetName planetRadius m r planetColor false := by
    simp [twoBody, push_back]
  have hsep : separation (⟨r, 0⟩ : Vector2f) ⟨0, 0⟩ = r := by
    unfold separation
    simp only [zero_sub, neg_sq, sub_self, ne_eq, OfNat.ofNat_ne_zero, not_false_eq_true,
      zero_pow, add_zero]
    exact Real.sqrt_sq (le_of_lt hr)
  have hval : newtonAccel (twoBody sunRadius planetRadius m r planetName sunColor planetColor) 1
      = ⟨-G * 1 / r ^ 2, 0⟩ := by
    unfold newtonAccel
    rw [hlen]
    have he : (Finset.range 2).erase 1 = {0} := by decide
    rw [he, Finset.sum_singleton, Finset.sum_singleton]
    unfold newtonPull
    simp only [hb0, hb1, CreatePlanet_position, CreatePlanet_mass, hsep]
    ext
    · simp only []
      field_simp
      ring
    · simp
  have hvel : (CreatePlanet planetName planetRadius m r planetColor false).velocity
      = ⟨0, -Real.sqrt (M * G / r)⟩ := by
    unfold CreatePlanet
    simp [hr0]
  have hnn : 0 ≤ M * G / r := by
    unfold M
    positivity
  refine ⟨⟨-G * 1 / r ^ 2, 0⟩, ?_, rfl, ⟨G / r ^ 3, by positivity, ?_, ?_⟩, ?_, ?_, ?_⟩
  · rw [List.getElem?_eq_getElem (by omega), ← hval, ← hacc, List.getD_eq_getElem _ _ (by omega)]
  · simp only [hb0, hb1, CreatePlanet_position]
    field_simp
    ring
  · simp only [hb0, hb1, CreatePlanet_position]
    simp
  · simp only [hb1, hvel]
    simp
  · simp only [hb1, hvel, neg_sq]
    rw [Real.sq_sqrt hnn]
    have h1 : (-G * 1 / r ^ 2) ^ 2 + (0 : ℝ) ^ 2 = (G / r ^ 2) ^ 2 := by ring
    rw [h1, Real.sqrt_sq (by positivity)]
    have h2 : (0 : ℝ) ^ 2 + M * G / r = G / r := by
      unfold M
      ring
    rw [h2, div_div, pow_two]
  · rw [hb0, CreatePlanet_mass]
    rfl

/-- Witness for C10: the Sun and the Earth of `main`. -/
theorem two_body_circular_orbit_witness :
    (0 : ℝ) < 1 ∧ (0 : ℝ) < 3e-6 ∧
    (forcePass 2 (twoBody 7000 63.71 3e-6 1 "Earth" Color.Yellow Color.Blue)).Accels[1]?
      = some ⟨-G * 1 / 1 ^ 2, 0⟩ := by
  obtain ⟨a, h1, h2, -⟩ := two_body_circular_orbit 7000 63.71 3e-6 1 "Earth" Color.Yellow
    Color.Blue (by norm_num) (by norm_num)
  exact ⟨by norm_num, by norm_num, by rw [h1, h2]⟩

lemma separation_self (p : Vector2f) : separation p p = 0 := by
  simp [separation]

lemma not_distinct_of_tail_eq (Bodies : List body) (a b : body)
    (h : a.position = b.position) :
    ¬ DistinctPositions (push_back (push_back Bodies a) b) := by
  unfold DistinctPositions push_back
  rw [List.append_assoc, List.pairwise_append]
  rintro ⟨-, h2, -⟩
  simp only [List.singleton_append, List.pairwise_cons, List.mem_singleton, forall_eq] at h2
  exact h2.1 h

/-- C7, counterexample: two `CreatePlanet` calls with the same distance are not rejected.
The registry `twinPlanets` is built, holds both bodies at the identical position, and the
radius the force loop computes for the pair is 0. -/
theorem twinPlanets_not_rejected :
    twinPlanets.length = 2 ∧
    (twinPlanets.getD 0 default).position = (twinPlanets.getD 1 default).position ∧
    ¬ DistinctPositions twinPlanets ∧
    Real.sqrt (((twinPlanets.getD 1 default).position.x
          - (twinPlanets.getD 0 default).position.x) ^ 2
        + ((twinPlanets.getD 1 default).position.y
          - (twinPlanets.getD 0 default).position.y) ^ 2) = 0 := by
  refine ⟨by simp [twinPlanets, push_back], by simp [twinPlanets, push_back], ?_, ?_⟩
  · exact not_distinct_of_tail_eq [] _ _ (by simp)
  · simp [twinPlanets, push_back]

/-- C7, as amended: `CreatePlanet` and `CreateMoon` return a body for every input and setup
has no rejection path. Two `CreatePlanet` calls with the same distance, or a `CreateMoon`
call with distance equal to `parentDistance` after the parent's `CreatePlanet`, return
bodies at the identical position `(distance, 0)`; appended to any registry they give a
registry that holds both bodies with coinciding positions, for which the radius of the
force loop is 0. -/
theorem coincident_bodies_accepted (Bodies : List body) (name1 name2 : String)
    (radius1 radius2 mass1 mass2 parentMass distance : ℝ) (color1 color2 : Color)
    (moon1 moon2 : Bool) :
    (CreatePlanet name1 radius1 mass1 distance color1 moon1).position = ⟨distance, 0⟩ ∧
    (CreatePlanet name2 radius2 mass2 distance color2 moon2).position = ⟨distance, 0⟩ ∧
    (CreateMoon name2 radius2 mass2 parentMass distance distance color2).position
      = ⟨distance, 0⟩ ∧
    (push_back (push_back Bodies (CreatePlanet name1 radius1 mass1 distance color1 moon1))
      (CreatePlanet name2 radius2 mass2 distance color2 moon2)).length = Bodies.length + 2 ∧
    (push_back (push_back Bodies (CreatePlanet name1 radius1 mass1 distance color1 moon1))
      (CreateMoon name2 radius2 mass2 parentMass distance distance color2)).length
      = Bodies.length + 2 ∧
    ¬ DistinctPositions
      (push_back (push_back Bodies (CreatePlanet name1 radius1 mass1 distance color1 moon1))
        (CreatePlanet name2 radius2 mass2 distance color2 moon2)) ∧
    ¬ DistinctPositions
      (push_back (push_back Bodies (CreatePlanet name1 radius1 mass1 distance color1 moon1))
        (CreateMoon name2 radius2 mass2 parentMass distance distance color2)) ∧
    separation (CreatePlanet name1 radius1 mass1 distance color1 moon1).position
      (CreatePlanet name2 radius2 mass2 distance color2 moon2).position = 0 ∧
    separation (CreatePlanet name1 radius1 mass1 distance color1 moon1).position
      (CreateMoon name2 radius2 mass2 parentMass distance distance color2).position = 0 := by
  refine ⟨by simp, by simp, by simp, by simp [push_back], by simp [push_back],
    not_distinct_of_tail_eq _ _ _ (by simp), not_distinct_of_tail_eq _ _ _ (by simp), ?_, ?_⟩
  · rw [CreatePlanet_position, CreatePlanet_position]
    exact separation_self _
  · rw [CreatePlanet_position, CreateMoon_position]
    exact separation_self _

end SolarSim
